import Mathlib

/-!
Shallow embedding of the bonus-turnover report pipeline
(`src/report.py` and `src/old/report_final.py`).

Raw cell values are modelled by `RawVal`: a cell either carries a numeric
value (anything `pd.to_numeric` parses), is already a missing marker (NaN),
or is non-numeric text (coerced to NaN by `pd.to_numeric(errors="coerce")`).
A raw date cell is modelled as `Option Date`: `some d` when
`pd.to_datetime(dayfirst=True, errors="coerce")` parses it to `d`, `none`
when it yields NaT.  A `Date` keeps the index of its calendar month
(`month`, playing the role of `dt.to_period("M").dt.to_timestamp()`) and a
position inside the month (`sub`).  Money and volume amounts are rationals.
A pandas DataFrame is a `Table`: a list of rows plus one presence flag per
column that the scripts test with `in df.columns`.
-/

structure Date where
  month : Int
  sub : Nat
deriving DecidableEq, Repr

inductive RawVal where
  | num (q : ℚ)
  | nan
  | str (s : String)
deriving DecidableEq, Repr

/-- Model of `pd.to_numeric(errors="coerce")` on one cell: numeric cells keep their
value, everything else becomes NaN. -/
def toNumericVal : RawVal → RawVal
  | .num q => .num q
  | .nan => .nan
  | .str _ => .nan

/-- Model of `Series.isin(exclusion_list)` on one cell: NaN and text match nothing. -/
def valMatches (v : RawVal) (l : List ℚ) : Bool :=
  match v with
  | .num q => l.contains q
  | .nan => false
  | .str _ => false

/-- One normalized input row, before validation/cleaning. -/
structure RawRow where
  date : Option Date
  bonus_plus : RawVal
  bonus_minus : RawVal
  liters : RawVal
  reason : String
  fuel_mark : RawVal
  azs_number : RawVal
deriving DecidableEq, Repr

/-- A DataFrame: rows plus presence flags for the columns the code tests. -/
structure Table where
  rows : List RawRow
  hasDate : Bool
  hasBonusPlus : Bool
  hasBonusMinus : Bool
  hasLiters : Bool
  hasReason : Bool
  hasFuelMark : Bool
  hasAzs : Bool
deriving DecidableEq, Repr

/-- Model of `CONFIG["FILTERS"]`: the enable flag and the two exclusion sets. -/
structure FilterConfig where
  enable : Bool
  excludeFuelMarks : List ℚ
  excludeAzs : List ℚ
deriving DecidableEq, Repr

/-- The statistics dict built by `apply_filters`.  `initial_count` is an
`Option` because the disabled branch returns a dict without that key. -/
structure FilterStats where
  filtered_rows : Nat
  filtered_fuel : Nat
  filtered_azs : Nat
  initial_count : Option Nat
deriving DecidableEq, Repr

/-- Model of `df_filtered["fuel_mark"] = pd.to_numeric(...)` (numeric coercion)
applied to one row. -/
def coerceFuel (r : RawRow) : RawRow :=
  { r with fuel_mark := toNumericVal r.fuel_mark }

def coerceAzs (r : RawRow) : RawRow :=
  { r with azs_number := toNumericVal r.azs_number }

/-- The fuel-mark stage of `apply_filters` (report.py lines 166-197):
when the exclusion list is nonempty and the column exists, coerce the
column to numeric, count the rows matching the exclusion set, and drop
them; otherwise leave the rows untouched.  Returns (surviving rows,
`stats["filtered_fuel"]`). -/
def runFuel (ex : List ℚ) (hasCol : Bool) (rows : List RawRow) :
    List RawRow × Nat :=
  if ex ≠ [] ∧ hasCol then
    let coerced := rows.map coerceFuel
    (coerced.filter (fun r => ! valMatches r.fuel_mark ex),
     coerced.countP (fun r => valMatches r.fuel_mark ex))
  else (rows, 0)

/-- The AZS stage of `apply_filters` (report.py lines 199-229), run on the
rows already reduced by the fuel stage. -/
def runAzs (ex : List ℚ) (hasCol : Bool) (rows : List RawRow) :
    List RawRow × Nat :=
  if ex ≠ [] ∧ hasCol then
    let coerced := rows.map coerceAzs
    (coerced.filter (fun r => ! valMatches r.azs_number ex),
     coerced.countP (fun r => valMatches r.azs_number ex))
  else (rows, 0)

/-- How `apply_filters` can fail: the enabled branch always prints the
percentage `stats["filtered_rows"]/initial_count*100` (report.py line
237), which raises ZeroDivisionError when the input table is empty
(`initial_count = 0`). -/
inductive FilterErr where
  | zeroDivisionStats
deriving DecidableEq, Repr

/-- Model of `apply_filters(df, config)` (report.py lines 142-241).
Disabled: returns the input with the three-key statistics dict of line
149 (note: no `initial_count` key), before any division.  Enabled:
fuel-mark filtering first, then AZS filtering on the already-reduced
rows; `filtered_rows` is `initial_count - len(df_filtered)`; the final
statistics print then divides `filtered_rows` by `initial_count`
(line 237), raising ZeroDivisionError — modelled as an error — whenever
the input table was empty. -/
def apply_filters (t : Table) (cfg : FilterConfig) :
    Except FilterErr (Table × FilterStats) :=
  if cfg.enable = false then
    .ok (t, { filtered_rows := 0, filtered_fuel := 0, filtered_azs := 0,
              initial_count := none })
  else
    let initial := t.rows.length
    let fuelOut := runFuel cfg.excludeFuelMarks t.hasFuelMark t.rows
    let azsOut := runAzs cfg.excludeAzs t.hasAzs fuelOut.1
    if initial = 0 then .error .zeroDivisionStats
    else
      .ok ({ t with rows := azsOut.1 },
           { filtered_rows := initial - azsOut.1.length,
             filtered_fuel := fuelOut.2,
             filtered_azs := azsOut.2,
             initial_count := some initial })

/-- One row of the cleaned table produced by `validate_and_clean_data`. -/
structure CleanRow where
  date : Date
  period : Int
  bonus_plus : ℚ
  bonus_minus : ℚ
  liters : ℚ
  reason : String
deriving DecidableEq, Repr

/-- How `validate_and_clean_data` can fail to return a cleaned table:
either required columns are missing (explicit `return None`), or the
cleaned table is empty and the summary-statistics line
`df["date"].min().strftime(...)` raises, because the minimum of an empty
datetime column is NaT and `NaT.strftime` raises ValueError. -/
inductive CleanErr where
  | missingColumns
  | emptyMinDate
deriving DecidableEq, Repr

/-- Model of `pd.to_numeric(errors="coerce").fillna(0)` on one cell. -/
def toNumericQ : RawVal → ℚ
  | .num q => q
  | .nan => 0
  | .str _ => 0

/-- Python `str.strip()`: drop leading and trailing whitespace. -/
def stripWS (s : String) : String :=
  ⟨((s.data.dropWhile Char.isWhitespace).reverse.dropWhile
      Char.isWhitespace).reverse⟩

/-- Cleaning of one row whose date parsed to `d`: numeric coercion with
`fillna(0)`, `reason` stripped, `period` = the calendar month of `date`. -/
def cleanRow (r : RawRow) (d : Date) : CleanRow :=
  { date := d, period := d.month,
    bonus_plus := toNumericQ r.bonus_plus,
    bonus_minus := toNumericQ r.bonus_minus,
    liters := toNumericQ r.liters,
    reason := stripWS r.reason }

def requiredColsPresent (t : Table) : Bool :=
  t.hasDate && t.hasBonusPlus && t.hasBonusMinus && t.hasLiters && t.hasReason

/-- Model of `validate_and_clean_data(df)` (report.py lines 243-282): missing
required columns return None; rows whose date fails to parse are dropped;
numeric defects are coerced to 0; `reason` is stripped; `period` is
derived.  The final summary block then evaluates
`df["date"].min().strftime("%d.%m.%Y")`, which raises when no row
survived (NaT has no strftime), modelled as `CleanErr.emptyMinDate`. -/
def validate_and_clean_data (t : Table) : Except CleanErr (List CleanRow) :=
  if requiredColsPresent t = false then
    .error .missingColumns
  else
    let cleaned := t.rows.filterMap (fun r => r.date.map (cleanRow r))
    if cleaned = [] then .error .emptyMinDate
    else .ok cleaned

/-! ### Aggregation (`calculate_report`) -/

/-- The `Период` cell of a report row: either the `strftime("%B %Y")`
rendering of a period (kept abstract as the period itself, the formatting
being injective on the data at hand) or the fixed sentinel `"ИТОГО"` of
the grand-total row of the old variant. -/
inductive PeriodLabel where
  | period (p : Int)
  | total
deriving DecidableEq, Repr

structure ReportRow where
  label : PeriodLabel
  bonus_accrued : ℚ
  liters_with_bonus : ℚ
  liters_total : ℚ
  bonus_redeemed : ℚ
  rate_per_liter : ℚ
deriving DecidableEq, Repr

/-- Insertion of an integer into a sorted list (ascending). -/
def insertSorted (x : Int) : List Int → List Int
  | [] => [x]
  | y :: ys => if x ≤ y then x :: y :: ys else y :: insertSorted x ys

/-- Ascending sort of the period keys, mirroring the ascending key order
of pandas `groupby` (the keys are deduplicated first, so any correct
ascending sort produces exactly the pandas ordering). -/
def sortInts : List Int → List Int
  | [] => []
  | x :: xs => insertSorted x (sortInts xs)

def posRows (rows : List CleanRow) : List CleanRow :=
  rows.filter (fun r => decide (0 < r.bonus_plus))

def negRows (rows : List CleanRow) : List CleanRow :=
  rows.filter (fun r => decide (r.bonus_minus < 0))

/-- Sum of `f` over the rows of a given period (one cell of a pandas
`groupby(...).sum()`). -/
def sumBy (rows : List CleanRow) (p : Int) (f : CleanRow → ℚ) : ℚ :=
  ((rows.filter (fun r => r.period == p)).map f).sum

/-- The index of the report frame: the distinct periods of the
positive-bonus subset, in ascending order (pandas `groupby` sorts its
keys). -/
def reportPeriods (rows : List CleanRow) : List Int :=
  sortInts ((posRows rows).map (·.period)).dedup

/-- One period row of the report (report.py lines 322-353): sums over the
positive-bonus subset, total liters over the whole cleaned table,
redemptions as the absolute value of the per-period sum of `bonus_minus`
over the negative-bonus subset (0 via `fillna(0)` when that period has
none, and the scalar 0 when the subset is empty), and the guarded rate. -/
def mkReportRow (rows : List CleanRow) (p : Int) : ReportRow :=
  let acc := sumBy (posRows rows) p (·.bonus_plus)
  let lwb := sumBy (posRows rows) p (·.liters)
  let red := if negRows rows ≠ [] then |sumBy (negRows rows) p (·.bonus_minus)| else 0
  { label := .period p,
    bonus_accrued := acc,
    liters_with_bonus := lwb,
    liters_total := sumBy rows p (·.liters),
    bonus_redeemed := red,
    rate_per_liter := if lwb ≠ 0 then acc / lwb else 0 }

/-- Model of `calculate_report(df)` of `src/report.py` (lines 314-364): one row per
period of the positive-bonus subset, no total row. -/
def calculate_report (rows : List CleanRow) : List ReportRow :=
  (reportPeriods rows).map (mkReportRow rows)

def sumAccrued (l : List ReportRow) : ℚ := (l.map (·.bonus_accrued)).sum
def sumLWB (l : List ReportRow) : ℚ := (l.map (·.liters_with_bonus)).sum
def sumLT (l : List ReportRow) : ℚ := (l.map (·.liters_total)).sum
def sumRedeemed (l : List ReportRow) : ℚ := (l.map (·.bonus_redeemed)).sum

/-- The `total_row` dict of `src/old/report_final.py` (lines 227-235):
every numeric column is the column sum over the period rows, and the rate
is recomputed from the summed columns with the same zero guard. -/
def totalRow (periodRows : List ReportRow) : ReportRow :=
  { label := .total,
    bonus_accrued := sumAccrued periodRows,
    liters_with_bonus := sumLWB periodRows,
    liters_total := sumLT periodRows,
    bonus_redeemed := sumRedeemed periodRows,
    rate_per_liter :=
      if sumLWB periodRows ≠ 0 then sumAccrued periodRows / sumLWB periodRows
      else 0 }

/-- Model of `calculate_report(df)` of `src/old/report_final.py` (lines 175-239):
the same per-period computation, then the grand-total row appended last. -/
def calculate_report_final (rows : List CleanRow) : List ReportRow :=
  calculate_report rows ++ [totalRow (calculate_report rows)]

/-! ### Report naming (`get_sheet_name_from_data`) -/

def splitWSAux : List Char → List Char → List String
  | [], acc => if acc = [] then [] else [⟨acc.reverse⟩]
  | c :: cs, acc =>
    if c.isWhitespace then
      if acc = [] then splitWSAux cs []
      else (⟨acc.reverse⟩ : String) :: splitWSAux cs []
    else splitWSAux cs (c :: acc)

/-- Python `str.split()` with no argument: split on whitespace runs,
dropping empty pieces. -/
def splitWS (s : String) : List String :=
  splitWSAux s.data []

/-- Python slicing `s[:n]`: the first `n` characters. -/
def takeChars (s : String) (n : Nat) : String :=
  ⟨s.data.take n⟩

/-- Model of `get_sheet_name_from_data(df_report)` of `src/report.py`
(lines 366-391), applied to the values of the `Период` column.  An empty
frame gives the fixed default; otherwise the label is built from the
first and last rows, abbreviated past 31 characters using
`split()[0][:3]` of both ends and `split()[1]` of the last.  `none`
models the IndexError Python raises when a needed `split()` piece is
missing. -/
def get_sheet_name_from_data (labels : List String) : Option String :=
  match labels with
  | [] => some "Отчет"
  | first :: rest =>
    let last := rest.getLastD first
    let sheet := "Отчет за " ++ first ++ " - " ++ last
    if sheet.length > 31 then
      match splitWS first, splitWS last with
      | fm :: _, lm :: ly :: _ =>
        some (takeChars fm 3 ++ "-" ++ takeChars lm 3 ++ " " ++ ly)
      | _, _ => none
    else some sheet

/-! ### Derived predicates and concrete inputs used by the theorems -/

/-- A period that owns at least one row with a strictly positive
`bonus_plus` (the periods that make it into the report frame). -/
def periodHasBonus (rows : List CleanRow) (p : Int) : Bool :=
  rows.any (fun s => decide (0 < s.bonus_plus) && (s.period == p))

/-- Placeholder row for `getLastD`; its contents never matter because it
is only read behind a nonempty list. -/
def dummyReportRow : ReportRow :=
  { label := .total, bonus_accrued := 0, liters_with_bonus := 0,
    liters_total := 0, bonus_redeemed := 0, rate_per_liter := 0 }

/-- The pipeline of `load_and_process_data` plus `calculate_report`
(report.py lines 284-364): filter, then validate/clean, then aggregate.
`none` means the run aborted before producing aggregator output rows
(whether in the Filter Engine or in the Validator/Cleaner). -/
def pipelineRows (t : Table) (cfg : FilterConfig) : Option (List ReportRow) :=
  (apply_filters t cfg).toOption.bind fun pr =>
    (validate_and_clean_data pr.1).toOption.map calculate_report

/-- A two-row normalized table with every column present. -/
def exTable3 : Table :=
  { rows :=
      [{ date := some ⟨0, 1⟩, bonus_plus := .num 1, bonus_minus := .num 0,
         liters := .num 2, reason := "", fuel_mark := .num 14, azs_number := .num 7 },
       { date := none, bonus_plus := .str "a", bonus_minus := .nan,
         liters := .num 3, reason := " y ", fuel_mark := .str "z", azs_number := .nan }],
    hasDate := true, hasBonusPlus := true, hasBonusMinus := true,
    hasLiters := true, hasReason := true, hasFuelMark := true, hasAzs := true }

/-- The table `exTable3` after the enabled run with exclusion sets
`[14]` (fuel marks) and `[7]` (AZS): the first row is removed by the fuel
rule, the surviving row carries numeric-coerced identifier columns. -/
def exTable3Filtered : Table :=
  { exTable3 with rows :=
      [{ date := none, bonus_plus := .str "a", bonus_minus := .nan,
         liters := .num 3, reason := " y ", fuel_mark := .nan,
         azs_number := .nan }] }

/-- The statistics of that same enabled run on `exTable3`. -/
def exStats10 : FilterStats :=
  { filtered_rows := 1, filtered_fuel := 1, filtered_azs := 0,
    initial_count := some 2 }

/-- A one-row table whose single row is removed by the fuel-mark rule
when 14 is excluded, leaving the Filter Engine's output empty. -/
def exTable7 : Table :=
  { rows :=
      [{ date := some ⟨0, 1⟩, bonus_plus := .num 5, bonus_minus := .num 0,
         liters := .num 2, reason := "", fuel_mark := .num 14,
         azs_number := .num 3 }],
    hasDate := true, hasBonusPlus := true, hasBonusMinus := true,
    hasLiters := true, hasReason := true, hasFuelMark := true, hasAzs := true }

/-- A one-row table whose single row has a valid date, `liters = 5` and no
positive bonus: its period never reaches the report frame. -/
def rawNoBonus : Table :=
  { rows :=
      [{ date := some ⟨0, 3⟩, bonus_plus := .num 0, bonus_minus := .num 0,
         liters := .num 5, reason := "x", fuel_mark := .nan, azs_number := .nan }],
    hasDate := true, hasBonusPlus := true, hasBonusMinus := true,
    hasLiters := true, hasReason := true, hasFuelMark := false, hasAzs := false }

/-- The cleaned form of `rawNoBonus`. -/
def cleanNoBonus : List CleanRow :=
  [{ date := ⟨0, 3⟩, period := 0, bonus_plus := 0, bonus_minus := 0,
     liters := 5, reason := "x" }]

/-- One row with an unparseable date and a non-numeric amount next to one
fully valid row. -/
def rawMixed : Table :=
  { rows :=
      [{ date := none, bonus_plus := .str "oops", bonus_minus := .num 0,
         liters := .num 1, reason := "r", fuel_mark := .nan, azs_number := .nan },
       { date := some ⟨5, 2⟩, bonus_plus := .num 7, bonus_minus := .str "?",
         liters := .num 4, reason := " ok ", fuel_mark := .nan, azs_number := .nan }],
    hasDate := true, hasBonusPlus := true, hasBonusMinus := true,
    hasLiters := true, hasReason := true, hasFuelMark := false, hasAzs := false }

/-- A table with all required columns whose every row has an unparseable
date. -/
def rawAllBadDates : Table :=
  { rows :=
      [{ date := none, bonus_plus := .str "X", bonus_minus := .num 0,
         liters := .num 1, reason := "r", fuel_mark := .nan, azs_number := .nan }],
    hasDate := true, hasBonusPlus := true, hasBonusMinus := true,
    hasLiters := true, hasReason := true, hasFuelMark := false, hasAzs := false }

/-- A cleaned table realizing the two-row scenario of the spec (January:
`bonus_plus=10, liters=5` and `bonus_plus=0, liters=3, bonus_minus=-2`). -/
def exClean2 : List CleanRow :=
  [{ date := ⟨0, 1⟩, period := 0, bonus_plus := 10, bonus_minus := 0,
     liters := 5, reason := "" },
   { date := ⟨0, 2⟩, period := 0, bonus_plus := 0, bonus_minus := -2,
     liters := 3, reason := "" }]

/-- The 22 period labels strictly between January 2024 and December 2025. -/
def midMonths : List String :=
  ["February 2024", "March 2024", "April 2024", "May 2024", "June 2024",
   "July 2024", "August 2024", "September 2024", "October 2024",
   "November 2024", "December 2024", "January 2025", "February 2025",
   "March 2025", "April 2025", "May 2025", "June 2025", "July 2025",
   "August 2025", "September 2025", "October 2025", "November 2025"]

/-- The 24 period labels "January 2024" through "December 2025". -/
def months2024to2025 : List String :=
  "January 2024" :: (midMonths ++ ["December 2025"])

/-! ## Theorems -/

/-- C3 is refuted at a concrete input: the disabled branch of
`apply_filters` returns the statistics dict with no `initial_count` entry
(modelled `none`), which is not the input row count `some 2` as the claim
requires. -/
theorem C3_counterexample :
    apply_filters exTable3
        { enable := false, excludeFuelMarks := [], excludeAzs := [] } =
      .ok (exTable3,
        { filtered_rows := 0, filtered_fuel := 0, filtered_azs := 0,
          initial_count := none }) ∧
    ({ filtered_rows := 0, filtered_fuel := 0, filtered_azs := 0,
       initial_count := none } : FilterStats).initial_count ≠
      some exTable3.rows.length := by
  exact ⟨rfl, by decide⟩

/-- C3 (amended): with the enable flag false, `apply_filters` returns the
input table unchanged together with statistics whose `filtered_rows`,
`filtered_fuel` and `filtered_azs` are all zero and which carry no
`initial_count` entry at all (the disabled branch returns before the
percentage statistic, so it never fails either). -/
theorem C3_filters_disabled (t : Table) (cfg : FilterConfig)
    (h : cfg.enable = false) :
    apply_filters t cfg =
      .ok (t, { filtered_rows := 0, filtered_fuel := 0, filtered_azs := 0,
                initial_count := none }) := by
  simp [apply_filters, h]

/-- Witness for C3 (amended) at a concrete table and configuration. -/
theorem C3_filters_disabled_witness :
    apply_filters exTable3 { enable := false, excludeFuelMarks := [14], excludeAzs := [7] } =
      .ok (exTable3, { filtered_rows := 0, filtered_fuel := 0, filtered_azs := 0,
                       initial_count := none }) :=
  C3_filters_disabled exTable3
    { enable := false, excludeFuelMarks := [14], excludeAzs := [7] } rfl

/-- C4: the Validator/Cleaner does recover per-row from a bad date next to
a valid row (bad date dropped, non-numeric amounts coerced to 0), but on a
table whose every row has an unparseable date, the summary statistics line
`df["date"].min().strftime(...)` of `validate_and_clean_data` raises
(NaT has no strftime) instead of returning the empty cleaned table, so the
run aborts, contradicting the claim and the stated intent. -/
theorem C4_cleaner_behavior :
    validate_and_clean_data rawMixed =
      .ok [{ date := ⟨5, 2⟩, period := 5, bonus_plus := 7, bonus_minus := 0,
             liters := 4, reason := "ok" }] ∧
    validate_and_clean_data rawAllBadDates = .error CleanErr.emptyMinDate := by
  constructor
  · rfl
  · rfl

/-- C5 is refuted at a concrete input: with exactly one period row the
Report Namer does not return the fixed default label, it builds (and here
abbreviates) a label from that single period. -/
theorem C5_counterexample :
    get_sheet_name_from_data ["Январь 2024"] ≠ some "Отчет" := by
  decide

/-- C5 (amended): with zero period rows the Report Namer returns the fixed
short default label, but with exactly one period row "<Month> <Year>" it
instead builds the label from that row used as both first and last period,
abbreviating it when it exceeds 31 characters. -/
theorem C5_one_period_row (m y : String)
    (h : splitWS (m ++ " " ++ y) = [m, y]) :
    get_sheet_name_from_data [] = some "Отчет" ∧
    get_sheet_name_from_data [m ++ " " ++ y] =
      some (if ("Отчет за " ++ (m ++ " " ++ y) ++ " - " ++ (m ++ " " ++ y)).length > 31 then
              takeChars m 3 ++ "-" ++ takeChars m 3 ++ " " ++ y
            else "Отчет за " ++ (m ++ " " ++ y) ++ " - " ++ (m ++ " " ++ y)) := by
  refine ⟨rfl, ?_⟩
  show (if ("Отчет за " ++ (m ++ " " ++ y) ++ " - " ++ (m ++ " " ++ y)).length > 31 then
          match splitWS (m ++ " " ++ y), splitWS (m ++ " " ++ y) with
          | fm :: _, lm :: ly :: _ =>
            some (takeChars fm 3 ++ "-" ++ takeChars lm 3 ++ " " ++ ly)
          | _, _ => none
        else some ("Отчет за " ++ (m ++ " " ++ y) ++ " - " ++ (m ++ " " ++ y))) = _
  rw [h]
  split
  · rfl
  · rfl

/-- Witness for C5 (amended) at the single period row "Январь 2024". -/
theorem C5_one_period_row_witness :
    get_sheet_name_from_data [] = some "Отчет" ∧
    get_sheet_name_from_data ["Январь" ++ " " ++ "2024"] =
      some (if ("Отчет за " ++ ("Январь" ++ " " ++ "2024") ++ " - " ++
                  ("Январь" ++ " " ++ "2024")).length > 31 then
              takeChars "Январь" 3 ++ "-" ++ takeChars "Январь" 3 ++ " " ++ "2024"
            else "Отчет за " ++ ("Январь" ++ " " ++ "2024") ++ " - " ++
                  ("Январь" ++ " " ++ "2024")) :=
  C5_one_period_row "Январь" "2024" (by decide)

/-- C6: with at least two period rows whose full label exceeds the
31-character cap, the Report Namer returns the abbreviation built from the
first three characters of the first and last month names and the final
year. -/
theorem C6_abbreviation (l0 ln : String) (mid : List String)
    (m0 : String) (t0 : List String) (m1 y1 : String) (t1 : List String)
    (h0 : splitWS l0 = m0 :: t0)
    (h1 : splitWS ln = m1 :: y1 :: t1)
    (hlen : ("Отчет за " ++ l0 ++ " - " ++ ln).length > 31) :
    get_sheet_name_from_data (l0 :: (mid ++ [ln])) =
      some (takeChars m0 3 ++ "-" ++ takeChars m1 3 ++ " " ++ y1) := by
  show (let last := (mid ++ [ln]).getLastD l0
        let sheet := "Отчет за " ++ l0 ++ " - " ++ last
        if sheet.length > 31 then
          match splitWS l0, splitWS last with
          | fm :: _, lm :: ly :: _ =>
            some (takeChars fm 3 ++ "-" ++ takeChars lm 3 ++ " " ++ ly)
          | _, _ => none
        else some sheet) = _
  rw [List.getLastD_concat]
  rw [if_pos hlen, h0, h1]

/-- Witness for C6: the 24 periods "January 2024" … "December 2025" give
the abbreviation "Jan-Dec 2025". -/
theorem C6_abbreviation_witness :
    get_sheet_name_from_data months2024to2025 = some "Jan-Dec 2025" := by
  have h := C6_abbreviation "January 2024" "December 2025" midMonths
    "January" ["2024"] "December" "2025" []
    (by decide) (by decide) (by decide)
  exact h

/-! ### Filter Engine lemmas -/

theorem toNumericVal_toNumericVal (v : RawVal) :
    toNumericVal (toNumericVal v) = toNumericVal v := by
  cases v <;> rfl

theorem runFuel_skip {ex : List ℚ} {hc : Bool} (rows : List RawRow)
    (h : ¬ (ex ≠ [] ∧ hc = true)) : runFuel ex hc rows = (rows, 0) := by
  simp only [runFuel]
  rw [if_neg h]

theorem runFuel_app {ex : List ℚ} {hc : Bool} (rows : List RawRow)
    (h : ex ≠ [] ∧ hc = true) :
    runFuel ex hc rows =
      ((rows.map coerceFuel).filter (fun r => ! valMatches r.fuel_mark ex),
       (rows.map coerceFuel).countP (fun r => valMatches r.fuel_mark ex)) := by
  simp only [runFuel]
  rw [if_pos h]

theorem runAzs_skip {ex : List ℚ} {hc : Bool} (rows : List RawRow)
    (h : ¬ (ex ≠ [] ∧ hc = true)) : runAzs ex hc rows = (rows, 0) := by
  simp only [runAzs]
  rw [if_neg h]

theorem runAzs_app {ex : List ℚ} {hc : Bool} (rows : List RawRow)
    (h : ex ≠ [] ∧ hc = true) :
    runAzs ex hc rows =
      ((rows.map coerceAzs).filter (fun r => ! valMatches r.azs_number ex),
       (rows.map coerceAzs).countP (fun r => valMatches r.azs_number ex)) := by
  simp only [runAzs]
  rw [if_pos h]

theorem fuel_facts_of_mem_runFuel {ex : List ℚ} {hc : Bool}
    {rows : List RawRow} {r : RawRow}
    (hb : ex ≠ [] ∧ hc = true) (h : r ∈ (runFuel ex hc rows).1) :
    toNumericVal r.fuel_mark = r.fuel_mark ∧ valMatches r.fuel_mark ex = false := by
  rw [runFuel_app rows hb] at h
  simp only [List.mem_filter, List.mem_map] at h
  obtain ⟨⟨r0, _, rfl⟩, hv⟩ := h
  refine ⟨toNumericVal_toNumericVal _, ?_⟩
  simpa using hv

theorem azs_facts_of_mem_runAzs {ex : List ℚ} {hc : Bool}
    {rows : List RawRow} {r : RawRow}
    (hb : ex ≠ [] ∧ hc = true) (h : r ∈ (runAzs ex hc rows).1) :
    toNumericVal r.azs_number = r.azs_number ∧ valMatches r.azs_number ex = false := by
  rw [runAzs_app rows hb] at h
  simp only [List.mem_filter, List.mem_map] at h
  obtain ⟨⟨r0, _, rfl⟩, hv⟩ := h
  refine ⟨toNumericVal_toNumericVal _, ?_⟩
  simpa using hv

theorem coerceFuel_eq_self {r : RawRow}
    (h : toNumericVal r.fuel_mark = r.fuel_mark) : coerceFuel r = r := by
  unfold coerceFuel
  rw [h]

theorem coerceAzs_eq_self {r : RawRow}
    (h : toNumericVal r.azs_number = r.azs_number) : coerceAzs r = r := by
  unfold coerceAzs
  rw [h]

theorem runFuel_fixed {ex : List ℚ} {hc : Bool} {rows : List RawRow}
    (hall : ∀ r ∈ rows,
      toNumericVal r.fuel_mark = r.fuel_mark ∧ valMatches r.fuel_mark ex = false) :
    runFuel ex hc rows = (rows, 0) := by
  by_cases hb : ex ≠ [] ∧ hc = true
  · rw [runFuel_app rows hb]
    have hmap : rows.map coerceFuel = rows := by
      have h1 : rows.map coerceFuel = rows.map id :=
        List.map_congr_left (fun a ha => coerceFuel_eq_self (hall a ha).1)
      simpa using h1
    rw [hmap, List.filter_eq_self.mpr (fun a ha => by simp [(hall a ha).2]),
        List.countP_eq_zero.mpr (fun a ha => by simp [(hall a ha).2])]
  · exact runFuel_skip rows hb

theorem runAzs_fixed {ex : List ℚ} {hc : Bool} {rows : List RawRow}
    (hall : ∀ r ∈ rows,
      toNumericVal r.azs_number = r.azs_number ∧ valMatches r.azs_number ex = false) :
    runAzs ex hc rows = (rows, 0) := by
  by_cases hb : ex ≠ [] ∧ hc = true
  · rw [runAzs_app rows hb]
    have hmap : rows.map coerceAzs = rows := by
      have h1 : rows.map coerceAzs = rows.map id :=
        List.map_congr_left (fun a ha => coerceAzs_eq_self (hall a ha).1)
      simpa using h1
    rw [hmap, List.filter_eq_self.mpr (fun a ha => by simp [(hall a ha).2]),
        List.countP_eq_zero.mpr (fun a ha => by simp [(hall a ha).2])]
  · exact runAzs_skip rows hb

theorem fuel_mark_of_mem_runAzs {ex : List ℚ} {hc : Bool}
    {rows : List RawRow} {r : RawRow} (h : r ∈ (runAzs ex hc rows).1) :
    ∃ r0 ∈ rows, r.fuel_mark = r0.fuel_mark := by
  by_cases hb : ex ≠ [] ∧ hc = true
  · rw [runAzs_app rows hb] at h
    simp only [List.mem_filter, List.mem_map] at h
    obtain ⟨⟨r0, hr0, rfl⟩, _⟩ := h
    exact ⟨r0, hr0, rfl⟩
  · rw [runAzs_skip rows hb] at h
    exact ⟨r, h, rfl⟩

theorem apply_filters_enabled (t : Table) (cfg : FilterConfig)
    (h : cfg.enable = true) (hne : t.rows ≠ []) :
    apply_filters t cfg =
      .ok ({ t with rows := (runAzs cfg.excludeAzs t.hasAzs
            (runFuel cfg.excludeFuelMarks t.hasFuelMark t.rows).1).1 },
       { filtered_rows := t.rows.length - (runAzs cfg.excludeAzs t.hasAzs
            (runFuel cfg.excludeFuelMarks t.hasFuelMark t.rows).1).1.length,
         filtered_fuel := (runFuel cfg.excludeFuelMarks t.hasFuelMark t.rows).2,
         filtered_azs := (runAzs cfg.excludeAzs t.hasAzs
            (runFuel cfg.excludeFuelMarks t.hasFuelMark t.rows).1).2,
         initial_count := some t.rows.length }) := by
  have hlen : ¬ (t.rows.length = 0) := by
    simpa [List.length_eq_zero] using hne
  simp only [apply_filters, h]
  rw [if_neg hlen]
  exact if_neg (by simp)

theorem apply_filters_empty_err (t : Table) (cfg : FilterConfig)
    (h : cfg.enable = true) (hz : t.rows = []) :
    apply_filters t cfg = .error FilterErr.zeroDivisionStats := by
  simp [apply_filters, h, hz]

theorem apply_filters_self (u : Table) (cfg : FilterConfig)
    (he : cfg.enable = true) (hne : u.rows ≠ [])
    (hf : runFuel cfg.excludeFuelMarks u.hasFuelMark u.rows = (u.rows, 0))
    (ha : runAzs cfg.excludeAzs u.hasAzs u.rows = (u.rows, 0)) :
    apply_filters u cfg =
      .ok (u, { filtered_rows := u.rows.length - u.rows.length,
                filtered_fuel := 0, filtered_azs := 0,
                initial_count := some u.rows.length }) := by
  rw [apply_filters_enabled u cfg he hne]
  simp only [hf, ha]

/-- C7 is refuted at a concrete input: with fuel mark 14 excluded, the
one-row table `exTable7` filters to an empty table, and re-applying the
enabled engine to that output raises ZeroDivisionError at the percentage
statistic (`0/0` at report.py line 237) instead of returning the table
unchanged — the second run produces no output table at all. -/
theorem C7_counterexample :
    apply_filters exTable7
        { enable := true, excludeFuelMarks := [14], excludeAzs := [] } =
      .ok ({ exTable7 with rows := [] },
           { filtered_rows := 1, filtered_fuel := 1, filtered_azs := 0,
             initial_count := some 1 }) ∧
    apply_filters { exTable7 with rows := [] }
        { enable := true, excludeFuelMarks := [14], excludeAzs := [] } =
      .error FilterErr.zeroDivisionStats := by
  exact ⟨rfl, rfl⟩

/-- C7 (amended): re-running the Filter Engine with the same configuration
on a table it produced removes no further rows, provided the second run
completes at all — it does unless filtering is enabled and the first
output table is empty, in which case the percentage statistic of the
enabled branch divides by zero instead of returning. -/
theorem C7_apply_filters_idem (t : Table) (cfg : FilterConfig)
    (t1 : Table) (s1 : FilterStats)
    (h : apply_filters t cfg = .ok (t1, s1))
    (hne : cfg.enable = true → t1.rows ≠ []) :
    ∃ s2, apply_filters t1 cfg = .ok (t1, s2) := by
  by_cases he : cfg.enable = true
  · have ht : t.rows ≠ [] := by
      intro hz
      rw [apply_filters_empty_err t cfg he hz] at h
      simp at h
    rw [apply_filters_enabled t cfg he ht] at h
    simp only [Except.ok.injEq, Prod.mk.injEq] at h
    obtain ⟨ht1, -⟩ := h
    have hf2 : runFuel cfg.excludeFuelMarks t.hasFuelMark
        (runAzs cfg.excludeAzs t.hasAzs
          (runFuel cfg.excludeFuelMarks t.hasFuelMark t.rows).1).1 =
        ((runAzs cfg.excludeAzs t.hasAzs
          (runFuel cfg.excludeFuelMarks t.hasFuelMark t.rows).1).1, 0) := by
      by_cases hb : cfg.excludeFuelMarks ≠ [] ∧ t.hasFuelMark = true
      · refine runFuel_fixed (fun r hr => ?_)
        obtain ⟨r0, hr0, hfm⟩ := fuel_mark_of_mem_runAzs hr
        have hfix := fuel_facts_of_mem_runFuel hb hr0
        rw [hfm]
        exact hfix
      · exact runFuel_skip _ hb
    have ha2 : runAzs cfg.excludeAzs t.hasAzs
        (runAzs cfg.excludeAzs t.hasAzs
          (runFuel cfg.excludeFuelMarks t.hasFuelMark t.rows).1).1 =
        ((runAzs cfg.excludeAzs t.hasAzs
          (runFuel cfg.excludeFuelMarks t.hasFuelMark t.rows).1).1, 0) := by
      by_cases hb : cfg.excludeAzs ≠ [] ∧ t.hasAzs = true
      · exact runAzs_fixed (fun r hr => azs_facts_of_mem_runAzs hb hr)
      · exact runAzs_skip _ hb
    subst ht1
    exact ⟨_, apply_filters_self _ cfg he (hne he) hf2 ha2⟩
  · have he' : cfg.enable = false := by
      revert he
      cases cfg.enable <;> simp
    refine ⟨{ filtered_rows := 0, filtered_fuel := 0, filtered_azs := 0,
              initial_count := none }, ?_⟩
    simp [apply_filters, he']

/-- Witness for C7 (amended): the nonempty filtered output of `exTable3`
passes through a second enabled run unchanged. -/
theorem C7_apply_filters_idem_witness :
    ∃ s2, apply_filters exTable3Filtered
        { enable := true, excludeFuelMarks := [14], excludeAzs := [7] } =
      .ok (exTable3Filtered, s2) :=
  C7_apply_filters_idem exTable3
    { enable := true, excludeFuelMarks := [14], excludeAzs := [7] }
    exTable3Filtered exStats10 (by rfl) (fun _ => by decide)

/-- C8: for every input table, running the pipeline with filtering
disabled produces exactly the same Aggregator output rows as running it
with filtering enabled but both exclusion sets empty.  On an empty input
table both runs produce no aggregator output: the enabled run aborts in
the Filter Engine's percentage statistic, the disabled run in the
Validator/Cleaner. -/
theorem C8_disabled_eq_empty_sets (t : Table) (ef ea : List ℚ) :
    pipelineRows t { enable := false, excludeFuelMarks := ef, excludeAzs := ea } =
      pipelineRows t { enable := true, excludeFuelMarks := [], excludeAzs := [] } := by
  have h1 : apply_filters t
        { enable := false, excludeFuelMarks := ef, excludeAzs := ea } =
      .ok (t, { filtered_rows := 0, filtered_fuel := 0, filtered_azs := 0,
                initial_count := none }) := by
    simp [apply_filters]
  by_cases hz : t.rows = []
  · have h2 : apply_filters t
          { enable := true, excludeFuelMarks := [], excludeAzs := [] } =
        .error FilterErr.zeroDivisionStats :=
      apply_filters_empty_err t _ rfl hz
    have hv : (validate_and_clean_data t).toOption = none := by
      unfold validate_and_clean_data
      by_cases hrc : requiredColsPresent t = false
      · simp [hrc, Except.toOption]
      · simp [hrc, hz, Except.toOption]
    unfold pipelineRows
    rw [h1, h2]
    show (validate_and_clean_data t).toOption.map calculate_report = none
    rw [hv]
    rfl
  · have h2 : apply_filters t
          { enable := true, excludeFuelMarks := [], excludeAzs := [] } =
        .ok (t, { filtered_rows := t.rows.length - t.rows.length,
                  filtered_fuel := 0, filtered_azs := 0,
                  initial_count := some t.rows.length }) := by
      have hf := @runFuel_skip [] t.hasFuelMark t.rows (by simp)
      have ha := @runAzs_skip [] t.hasAzs t.rows (by simp)
      rw [apply_filters_enabled t _ rfl hz]
      simp only [hf, ha]
    unfold pipelineRows
    rw [h1, h2]
    rfl

theorem runFuel_len (ex : List ℚ) (hc : Bool) (rows : List RawRow) :
    (runFuel ex hc rows).2 + (runFuel ex hc rows).1.length = rows.length := by
  by_cases hb : ex ≠ [] ∧ hc = true
  · rw [runFuel_app rows hb]
    have h1 := List.length_eq_length_filter_add (l := rows.map coerceFuel)
      (fun r => valMatches r.fuel_mark ex)
    have h2 : (rows.map coerceFuel).length = rows.length := List.length_map _ _
    simp only [List.countP_eq_length_filter]
    omega
  · rw [runFuel_skip rows hb]
    simp

theorem runAzs_len (ex : List ℚ) (hc : Bool) (rows : List RawRow) :
    (runAzs ex hc rows).2 + (runAzs ex hc rows).1.length = rows.length := by
  by_cases hb : ex ≠ [] ∧ hc = true
  · rw [runAzs_app rows hb]
    have h1 := List.length_eq_length_filter_add (l := rows.map coerceAzs)
      (fun r => valMatches r.azs_number ex)
    have h2 : (rows.map coerceAzs).length = rows.length := List.length_map _ _
    simp only [List.countP_eq_length_filter]
    omega
  · rw [runAzs_skip rows hb]
    simp

/-- C10: whenever the enabled Filter Engine returns a table and
statistics, the two sequential rule counts exactly account for every
removed row: `filtered_rows = filtered_fuel + filtered_azs`, and
`filtered_rows` equals `initial_count` minus the row count of the
returned table. -/
theorem C10_filter_stats (t : Table) (ef ea : List ℚ)
    (t1 : Table) (s : FilterStats)
    (h : apply_filters t { enable := true, excludeFuelMarks := ef, excludeAzs := ea } =
      .ok (t1, s)) :
    s.filtered_rows = s.filtered_fuel + s.filtered_azs ∧
    s.filtered_rows = t.rows.length - t1.rows.length ∧
    s.initial_count = some t.rows.length := by
  have ht : t.rows ≠ [] := by
    intro hz
    rw [apply_filters_empty_err t _ rfl hz] at h
    simp at h
  rw [apply_filters_enabled t _ rfl ht] at h
  simp only [Except.ok.injEq, Prod.mk.injEq] at h
  obtain ⟨ht1, hs⟩ := h
  subst ht1
  subst hs
  have hF := runFuel_len ef t.hasFuelMark t.rows
  have hA := runAzs_len ea t.hasAzs (runFuel ef t.hasFuelMark t.rows).1
  refine ⟨?_, rfl, rfl⟩
  simp only []
  omega

/-- Witness for C10: the enabled run on `exTable3` with exclusion sets
`[14]` and `[7]` returns `exTable3Filtered` with statistics `exStats10`,
which satisfy both accounting identities. -/
theorem C10_filter_stats_witness :
    exStats10.filtered_rows = exStats10.filtered_fuel + exStats10.filtered_azs ∧
    exStats10.filtered_rows = exTable3.rows.length - exTable3Filtered.rows.length ∧
    exStats10.initial_count = some exTable3.rows.length :=
  C10_filter_stats exTable3 [14] [7] exTable3Filtered exStats10 (by rfl)

/-! ### Aggregation lemmas -/

theorem insertSorted_perm (x : Int) (l : List Int) :
    List.Perm (insertSorted x l) (x :: l) := by
  induction l with
  | nil => exact List.Perm.refl _
  | cons y ys ih =>
    unfold insertSorted
    by_cases hxy : x ≤ y
    · rw [if_pos hxy]
    · rw [if_neg hxy]
      exact (ih.cons y).trans (List.Perm.swap x y ys)

theorem sortInts_perm (l : List Int) : List.Perm (sortInts l) l := by
  induction l with
  | nil => exact List.Perm.refl _
  | cons x xs ih =>
    exact (insertSorted_perm x (sortInts xs)).trans (ih.cons x)

theorem sum_filter_orb (f : CleanRow → ℚ) (p q : CleanRow → Bool) :
    ∀ l : List CleanRow, (∀ a ∈ l, ¬(p a = true ∧ q a = true)) →
      ((l.filter (fun a => p a || q a)).map f).sum =
        ((l.filter p).map f).sum + ((l.filter q).map f).sum := by
  intro l
  induction l with
  | nil =>
    intro _
    simp
  | cons a l ih =>
    intro hd
    have hih := ih (fun b hb => hd b (List.mem_cons_of_mem a hb))
    have ha := hd a (List.mem_cons_self a l)
    cases hp : p a <;> cases hq : q a
    · simp only [List.filter_cons, hp, hq, Bool.or_self, Bool.false_eq_true,
        if_false, hih]
    · simp only [List.filter_cons, hp, hq, Bool.false_or, if_true,
        Bool.false_eq_true, if_false, List.map_cons, List.sum_cons, hih]
      ring
    · simp only [List.filter_cons, hp, hq, Bool.or_false, if_true,
        Bool.false_eq_true, if_false, List.map_cons, List.sum_cons, hih]
      ring
    · exact absurd ⟨hp, hq⟩ ha

theorem sum_over_nodup_periods (rows : List CleanRow) (f : CleanRow → ℚ) :
    ∀ ps : List Int, ps.Nodup →
      ((ps.map (fun p => sumBy rows p f)).sum =
        ((rows.filter (fun r => ps.contains r.period)).map f).sum) := by
  intro ps
  induction ps with
  | nil =>
    intro _
    simp [List.contains]
  | cons p ps ih =>
    intro hnd
    have hnotmem : p ∉ ps := (List.nodup_cons.mp hnd).1
    have hih := ih (List.nodup_cons.mp hnd).2
    have hdisj : ∀ a ∈ rows,
        ¬((a.period == p) = true ∧ ps.contains a.period = true) := by
      rintro a _ ⟨h1, h2⟩
      have hap : a.period = p := by simpa using h1
      rw [hap] at h2
      exact hnotmem (by simpa [List.contains, List.elem_iff] using h2)
    have hfc : rows.filter (fun r => (p :: ps).contains r.period) =
        rows.filter (fun r => (r.period == p) || ps.contains r.period) :=
      List.filter_congr (fun a _ => List.contains_cons)
    rw [List.map_cons, List.sum_cons, hih, hfc,
      sum_filter_orb f (fun r => r.period == p) (fun r => ps.contains r.period)
        rows hdisj]
    rfl

theorem calculate_report_liters_total (rows : List CleanRow) :
    sumLT (calculate_report rows) =
      ((rows.filter (fun r =>
        (((posRows rows).map (·.period)).dedup).contains r.period)).map
          (·.liters)).sum := by
  unfold sumLT calculate_report reportPeriods
  rw [List.map_map]
  have hmap : ((fun x => x.liters_total) ∘ mkReportRow rows) =
      fun p => sumBy rows p (·.liters) := by
    funext p
    rfl
  rw [hmap]
  have hperm := (sortInts_perm (((posRows rows).map (·.period)).dedup)).map
    (fun p => sumBy rows p (·.liters))
  rw [hperm.sum_eq]
  exact sum_over_nodup_periods rows (·.liters) _ (List.nodup_dedup _)

theorem dedup_contains_eq_periodHasBonus (rows : List CleanRow) (x : Int) :
    (((posRows rows).map (·.period)).dedup).contains x = periodHasBonus rows x := by
  rw [Bool.eq_iff_iff]
  simp only [List.contains, List.elem_iff, List.mem_dedup, List.mem_map,
    posRows, List.mem_filter, periodHasBonus, List.any_eq_true,
    Bool.and_eq_true, decide_eq_true_eq, beq_iff_eq]
  constructor
  · rintro ⟨r, ⟨hr, hpos⟩, rfl⟩
    exact ⟨r, hr, hpos, rfl⟩
  · rintro ⟨r, hr, hpos, rfl⟩
    exact ⟨r, ⟨hr, hpos⟩, rfl⟩

/-- C1 is refuted at a concrete input: a cleaned table whose single row
has `liters = 5` but no positive bonus yields a report with no period row
at all, so the summed `liters_total` is 0 while the summed `liters` of the
cleaned table is 5. -/
theorem C1_counterexample :
    validate_and_clean_data rawNoBonus = .ok cleanNoBonus ∧
    sumLT (calculate_report cleanNoBonus) ≠ ((cleanNoBonus.map (·.liters)).sum) := by
  constructor
  · rfl
  · intro hcontra
    have hrep : calculate_report cleanNoBonus = [] := by decide
    rw [hrep] at hcontra
    norm_num [sumLT, cleanNoBonus] at hcontra

/-- C1 (amended): the sum of `liters_total` over the period rows equals
the sum of `liters` over exactly those cleaned rows whose period has at
least one positive-bonus row — rows of periods without any positive bonus
are left out of the report by the index-aligned column assignment. -/
theorem C1_liters_total (rows : List CleanRow) :
    sumLT (calculate_report rows) =
      ((rows.filter (fun r => periodHasBonus rows r.period)).map (·.liters)).sum := by
  rw [calculate_report_liters_total,
    List.filter_congr (fun a _ => dedup_contains_eq_periodHasBonus rows a.period)]

theorem label_of_mem_calculate_report {rows : List CleanRow} {r : ReportRow}
    (h : r ∈ calculate_report rows) : ∃ p, r.label = PeriodLabel.period p := by
  unfold calculate_report at h
  rw [List.mem_map] at h
  obtain ⟨p, _, rfl⟩ := h
  exact ⟨p, rfl⟩

/-- C2: for a non-empty cleaned table, the old variant's report ends with
exactly one grand-total row: its label is the fixed sentinel, each numeric
column is the plain column sum over the period rows, and its rate is
recomputed from the summed columns (guarded), not summed from the
per-period rates. -/
theorem C2_total_row (rows : List CleanRow) (_hne : rows ≠ []) :
    calculate_report_final rows ≠ [] ∧
    ((calculate_report_final rows).getLastD dummyReportRow).label = PeriodLabel.total ∧
    (∀ r ∈ (calculate_report_final rows).dropLast, r.label ≠ PeriodLabel.total) ∧
    ((calculate_report_final rows).getLastD dummyReportRow).bonus_accrued =
      sumAccrued ((calculate_report_final rows).dropLast) ∧
    ((calculate_report_final rows).getLastD dummyReportRow).liters_with_bonus =
      sumLWB ((calculate_report_final rows).dropLast) ∧
    ((calculate_report_final rows).getLastD dummyReportRow).liters_total =
      sumLT ((calculate_report_final rows).dropLast) ∧
    ((calculate_report_final rows).getLastD dummyReportRow).bonus_redeemed =
      sumRedeemed ((calculate_report_final rows).dropLast) ∧
    ((calculate_report_final rows).getLastD dummyReportRow).rate_per_liter =
      (if sumLWB ((calculate_report_final rows).dropLast) ≠ 0 then
        sumAccrued ((calculate_report_final rows).dropLast) /
          sumLWB ((calculate_report_final rows).dropLast)
      else 0) := by
  have hdl : (calculate_report_final rows).dropLast = calculate_report rows := by
    unfold calculate_report_final
    exact List.dropLast_concat
  have hgl : (calculate_report_final rows).getLastD dummyReportRow =
      totalRow (calculate_report rows) := by
    unfold calculate_report_final
    exact List.getLastD_concat _ _ _
  rw [hdl, hgl]
  refine ⟨by simp [calculate_report_final], rfl, ?_, rfl, rfl, rfl, rfl, rfl⟩
  intro r hr
  obtain ⟨p, hp⟩ := label_of_mem_calculate_report hr
  simp [hp]

/-- Witness for C2 at the spec's two-row January scenario. -/
theorem C2_total_row_witness :
    calculate_report_final exClean2 ≠ [] ∧
    ((calculate_report_final exClean2).getLastD dummyReportRow).label = PeriodLabel.total ∧
    (∀ r ∈ (calculate_report_final exClean2).dropLast, r.label ≠ PeriodLabel.total) ∧
    ((calculate_report_final exClean2).getLastD dummyReportRow).bonus_accrued =
      sumAccrued ((calculate_report_final exClean2).dropLast) ∧
    ((calculate_report_final exClean2).getLastD dummyReportRow).liters_with_bonus =
      sumLWB ((calculate_report_final exClean2).dropLast) ∧
    ((calculate_report_final exClean2).getLastD dummyReportRow).liters_total =
      sumLT ((calculate_report_final exClean2).dropLast) ∧
    ((calculate_report_final exClean2).getLastD dummyReportRow).bonus_redeemed =
      sumRedeemed ((calculate_report_final exClean2).dropLast) ∧
    ((calculate_report_final exClean2).getLastD dummyReportRow).rate_per_liter =
      (if sumLWB ((calculate_report_final exClean2).dropLast) ≠ 0 then
        sumAccrued ((calculate_report_final exClean2).dropLast) /
          sumLWB ((calculate_report_final exClean2).dropLast)
      else 0) :=
  C2_total_row exClean2 (by decide)

/-- C9: every period row's `rate_per_liter` is the guarded quotient: the
row's `bonus_accrued / liters_with_bonus` when `liters_with_bonus` is
nonzero and exactly 0 otherwise, so no division error can arise. -/
theorem C9_rate_guarded (rows : List CleanRow) (r : ReportRow)
    (h : r ∈ calculate_report rows) :
    r.rate_per_liter =
      if r.liters_with_bonus ≠ 0 then r.bonus_accrued / r.liters_with_bonus
      else 0 := by
  unfold calculate_report at h
  rw [List.mem_map] at h
  obtain ⟨p, _, rfl⟩ := h
  rfl

/-- Witness for C9 at the January period of the spec's two-row scenario. -/
theorem C9_rate_guarded_witness :
    (mkReportRow exClean2 0).rate_per_liter =
      if (mkReportRow exClean2 0).liters_with_bonus ≠ 0 then
        (mkReportRow exClean2 0).bonus_accrued / (mkReportRow exClean2 0).liters_with_bonus
      else 0 :=
  C9_rate_guarded exClean2 (mkReportRow exClean2 0)
    (show mkReportRow exClean2 0 ∈
        (reportPeriods exClean2).map (mkReportRow exClean2) from
      List.mem_map_of_mem _ (by decide))
